import Mathlib

/-!
Verification development for the json-id-transformer repository.

The subject is the function transformJsonIds (src/transformJsonIds.ts): it
discovers identifier values inside a JSON document via JSONPath patterns,
deduplicates them per (typename, id) pair, resolves them through one batched
external call (batchIds), and writes the mapped values back, preserving each
original value under a sibling field named by prepending a configurable
marker (source option originalIdPrefix, default "@") to the field name.

The embedding below mirrors the source line by line:
  - Json models the JSON-compatible value trees the engine traverses.
    Numbers are modelled as Int: the specification and the engine treat
    identifiers as strings or integer-like numbers, and String(n) in
    JavaScript is the decimal form for integers in the safe range.
  - Pointer / getPtr / setPtr model the json-pointer package (parse and
    compile are the identity here because a pointer is kept as its token
    list, exactly what jsonPointer.parse produces).
  - PathSeg / PathQuery / resolvePointers model the jsonpath-plus evaluator
    for the pattern subset the engine is specified against: root-anchored
    chains of field names and [*] wildcards (a wildcard enumerates all
    members of an object or all elements of an array, as jsonpath-plus
    does), invoked with resultType "pointer", flatten true and wrap false.
    PathQuery.malformed stands for a pattern string the external evaluator
    rejects, which the engine wraps in InvalidJSONPathError.
  - transformJsonIds is the engine itself.  Because the embedding is pure,
    the mutation discipline of the source (structuredClone versus aliasing
    the caller input, source line 168) is made explicit: TransformResult
    carries the value of the caller object after the call (callerDoc), and
    errors internally carry the working document as it stood when they were
    raised, so that partial-write behaviour is observable.  The list of
    argument lists passed to batchIds (batchCalls) is carried for the same
    reason: the call protocol is part of the specified behaviour.
-/

/-- A JSON-compatible value tree: objects, arrays, strings, numbers
(integer-valued, see the header note), booleans, null. Object fields keep
insertion order, as JavaScript objects do. -/
inductive Json where
  | null : Json
  | bool (b : Bool) : Json
  | num (n : Int) : Json
  | str (s : String) : Json
  | arr (elems : List Json) : Json
  | obj (fields : List (String × Json)) : Json
deriving Repr

/-- A JSON Pointer, kept in parsed form: the list of reference tokens that
jsonPointer.parse produces (array indices appear as decimal strings). -/
abbrev Pointer := List String

/-- First-match association-list lookup over the fields of a JSON object,
modelling JavaScript property access (keys in one object are unique). -/
def lookupField : List (String × Json) → String → Option Json
  | [], _ => none
  | (k, v) :: rest, tok => if k = tok then some v else lookupField rest tok

/-- Assignment obj[k] = v on a JavaScript object: replaces the value in
place when the key exists, otherwise appends the key at the end, which is
the insertion-order behaviour of JavaScript objects. -/
def setField : List (String × Json) → String → Json → List (String × Json)
  | [], k, v => [(k, v)]
  | (k0, v0) :: rest, k, v =>
    if k0 = k then (k, v) :: rest else (k0, v0) :: setField rest k v

/-- Interprets a reference token as an array index: the unique in-bounds
index whose canonical decimal form is the token, mirroring the
token-in-object test the json-pointer package performs on arrays (written
as a bounded search so that the kernel can evaluate it). -/
def arrIdx (tok : String) (len : Nat) : Option Nat :=
  (List.range len).find? (fun i => toString i == tok)

/-- A decimal digit, for the index-shaped-token test below. -/
def isDigitChar (c : Char) : Bool :=
  decide ('0' ≤ c) && decide (c ≤ '9')

/-- The test the json-pointer package applies to the token after a missing
object key to decide whether to create an array or an object: the token
matches the regular expression of one or more digits, or is "-". -/
def isIndexToken (s : String) : Bool :=
  (!s.data.isEmpty && s.data.all isDigitChar) || s == "-"

/-- One dereference step: the child of a JSON value under a token, or none
when the token does not resolve (the json-pointer package throws there). -/
def Json.child : Json → String → Option Json
  | .obj fs, tok => lookupField fs tok
  | .arr xs, tok =>
    match arrIdx tok xs.length with
    | some i => some (xs.getD i .null)
    | none => none
  | _, _ => none

/-- jsonPointer.get: walks the token list; none models the throw of the
json-pointer package when a token does not resolve. -/
def Json.getPtr : Json → Pointer → Option Json
  | j, [] => some j
  | j, tok :: rest =>
    match j.child tok with
    | some c => c.getPtr rest
    | none => none

/-- jsonPointer.set, as a functional update. The walk mirrors the package:
intermediate containers are created when a key is missing on an object (an
array when the following token looks like an index, an object otherwise),
and the final token assigns into the existing container. none models the
cases where the package (running under strict mode) throws: descending into
or assigning onto a primitive, and array positions outside the canonical
in-bounds indices (the package-specific behaviours for the token "-" and
for non-index array properties are outside the pattern subset the engine is
specified against and are not exercised by the claims). -/
def Json.setPtr : Json → Pointer → Json → Option Json
  | _, [], _ => none
  | .obj fs, [tok], v => some (.obj (setField fs tok v))
  | .arr xs, [tok], v =>
    match arrIdx tok xs.length with
    | some i => some (.arr (xs.set i v))
    | none => none
  | .obj fs, tok :: next :: rest, v =>
    match lookupField fs tok with
    | some c =>
      match Json.setPtr c (next :: rest) v with
      | some c1 => some (.obj (setField fs tok c1))
      | none => none
    | none =>
      match Json.setPtr (if isIndexToken next then .arr [] else .obj []) (next :: rest) v with
      | some c1 => some (.obj (setField fs tok c1))
      | none => none
  | .arr xs, tok :: next :: rest, v =>
    match arrIdx tok xs.length with
    | some i =>
      match Json.setPtr (xs.getD i .null) (next :: rest) v with
      | some c1 => some (.arr (xs.set i c1))
      | none => none
    | none => none
  | _, _ :: _, _ => none

/-- One segment of a JSONPath pattern from the subset the engine is
specified against: a field-name (or index) step, or the [*] wildcard. -/
inductive PathSeg where
  | key (name : String) : PathSeg
  | wildcard : PathSeg
deriving Repr, DecidableEq

/-- A JSONPath pattern as handed to the external evaluator: either a
well-formed root-anchored segment chain, or a pattern string the evaluator
rejects with a parse failure (which the engine turns into
InvalidJSONPathError). -/
inductive PathQuery where
  | segs (l : List PathSeg) : PathQuery
  | malformed (raw : String) : PathQuery
deriving Repr, DecidableEq

/-- The members of a value as (token, child) pairs, in document order: the
fields of an object, the elements of an array under their decimal indices.
This is what the [*] wildcard of jsonpath-plus enumerates. -/
def Json.members : Json → List (String × Json)
  | .obj fs => fs
  | .arr xs => (xs.enum).map (fun p => (toString p.1, p.2))
  | _ => []

/-- Expands one path segment over a frontier of (value, pointer-so-far)
pairs, preserving document order, exactly as the evaluator descends. -/
def stepSeg (fr : List (Json × Pointer)) (seg : PathSeg) : List (Json × Pointer) :=
  match seg with
  | .key name =>
    fr.foldr
      (fun jp acc =>
        match jp.1.child name with
        | some c => (c, jp.2 ++ [name]) :: acc
        | none => acc)
      []
  | .wildcard =>
    fr.foldr
      (fun jp acc => (jp.1.members.map (fun kc => (kc.2, jp.2 ++ [kc.1]))) ++ acc)
      []

/-- The ordered pointers a well-formed pattern matches in a document:
the JSONPath call of the source with resultType "pointer", flatten true,
wrap false (zero matches simply yield the empty list). -/
def resolvePointers (j : Json) (l : List PathSeg) : List Pointer :=
  (l.foldl stepSeg [(j, [])]).map (fun jp => jp.2)

/-- Evaluation of a pattern, with the evaluator failure made explicit:
a malformed pattern is the case where the external evaluator throws. -/
def resolveQuery (q : PathQuery) (j : Json) : Except Unit (List Pointer) :=
  match q with
  | .segs l => .ok (resolvePointers j l)
  | .malformed _ => .error ()

/-- One entry of the deduplicated batch as handed to the external batchIds
function: the id in string form and its typename. -/
structure BatchEntry where
  id : String
  typename : String
deriving Repr, DecidableEq

/-- One value of the idsBatchMap of the source (line 171): the id in string
form, the original value before string coercion (a string or a number), the
typename, and every JSON Pointer that references this (typename, id) pair. -/
structure BatchItem where
  id : String
  originalId : Json
  typename : String
  pointers : List Pointer
deriving Repr

/-- A pathTypeMap value: a literal typename string, or a classification
function of (id string, parent object, pattern); its Except-error case
models the function throwing, which the engine wraps in PathTypeMapFnError. -/
inductive TypeRule where
  | lit (typename : String) : TypeRule
  | fn (f : String → Json → PathQuery → Except Unit String) : TypeRule

/-- The typed failures of src/errors.ts, carrying the same structured
context (pattern, id value, expected and received counts, pointer). -/
inductive TransformError where
  | invalidJSONPath (path : PathQuery) : TransformError
  | pathTypeMapFn (path : PathQuery) (idValue : String) : TransformError
  | batchIds : TransformError
  | batchIdsMismatch (expected received : Nat) : TransformError
  | invalidJSONPointer (pointer : Pointer) : TransformError
deriving Repr, DecidableEq

/-- Discriminates the pointer-write failure kind from the other error
kinds: InvalidJSONPointerError is the only error the scatter loop can
raise. -/
def isPointerError : TransformError → Bool
  | .invalidJSONPointer _ => true
  | _ => false

/-- The options record of transformJsonIds. pathTypeMap is kept as an
ordered list because the source iterates the object keys in insertion
order. batchIds is the external asynchronous resolution function (its
Except-error case models a rejected promise). originalIdPre models the
originalIdPrefix option: none stands for the option being absent, in which
case the source falls back to "@" (line 364). -/
structure TransformOptions where
  pathTypeMap : List (PathQuery × TypeRule)
  batchIds : List BatchEntry → Except Unit (List (Option String))
  originalIdPre : Option String
  mutate : Bool

/-- The observable outcome of one transformJsonIds call: the settled result
(output document or typed error), the value of the caller-owned input
object after the call (which the mutate option aliases to the working
document), and the argument lists of the batchIds invocations that were
performed. -/
structure TransformResult where
  result : Except TransformError Json
  callerDoc : Json
  batchCalls : List (List BatchEntry)

/-- Type guard of the source (line 51): a value is a usable identifier
exactly when it is a string or a number. -/
def isValidIdType : Json → Bool
  | .str _ => true
  | .num _ => true
  | _ => false

/-- String coercion of an identifier value (source line 267): a string is
kept, a number becomes its decimal form via String(n). -/
def idStringOf : Json → String
  | .str s => s
  | .num n => toString n
  | _ => ""

/-- The dedupe key of the source (line 292): typename ++ ":" ++ id. -/
def itemKey (e : BatchItem) : String :=
  e.typename ++ ":" ++ e.id

/-- getParentObject of the source (line 185): parses the pointer, rejects
an empty one, pops the final segment and dereferences the parent (the
per-call cache of the source is a pure lookup here). -/
def getParentObject (fullJson : Json) (idPtr : Pointer) : Except TransformError Json :=
  if idPtr = [] then .error (.invalidJSONPointer idPtr)
  else
    match fullJson.getPtr idPtr.dropLast with
    | some p => .ok p
    | none => .error (.invalidJSONPointer idPtr.dropLast)

/-- Insertion into the idsBatchMap (source lines 291 to 306): an existing
entry under the same dedupe key only gains the new pointer; otherwise a new
entry is appended, so first-sight order is the batch order. -/
def addToBatch (acc : List BatchItem) (typename idString : String)
    (originalId : Json) (idPtr : Pointer) : List BatchItem :=
  if acc.any (fun e => itemKey e == typename ++ ":" ++ idString) then
    acc.map (fun e =>
      if itemKey e == typename ++ ":" ++ idString then
        ⟨e.id, e.originalId, e.typename, e.pointers ++ [idPtr]⟩
      else e)
  else
    acc ++ [⟨idString, originalId, typename, [idPtr]⟩]

/-- The body of the pointer loop of the source (lines 239 to 307) for one
pointer: read the value, silently skip null and non-identifier values,
coerce to string, fetch the parent, run the type rule, and record the
occurrence in the dedupe accumulator. -/
def processPointer (fullJson : Json) (q : PathQuery) (rule : TypeRule)
    (acc : List BatchItem) (idPtr : Pointer) : Except TransformError (List BatchItem) :=
  match fullJson.getPtr idPtr with
  | none => .error (.invalidJSONPointer idPtr)
  | some idValue =>
    match idValue with
    | .null => .ok acc
    | _ =>
      if isValidIdType idValue then
        match getParentObject fullJson idPtr with
        | .error e => .error e
        | .ok parentObj =>
          match rule with
          | .lit t => .ok (addToBatch acc t (idStringOf idValue) idValue idPtr)
          | .fn f =>
            match f (idStringOf idValue) parentObj q with
            | .ok t => .ok (addToBatch acc t (idStringOf idValue) idValue idPtr)
            | .error _ => .error (.pathTypeMapFn q (idStringOf idValue))
      else
        .ok acc

/-- The pointer loop of the source, over all pointers one pattern matched. -/
def processPointers (fullJson : Json) (q : PathQuery) (rule : TypeRule) :
    List Pointer → List BatchItem → Except TransformError (List BatchItem)
  | [], acc => .ok acc
  | ptr :: rest, acc =>
    match processPointer fullJson q rule acc ptr with
    | .error e => .error e
    | .ok acc1 => processPointers fullJson q rule rest acc1

/-- The pattern loop of the source (line 210): evaluate each pattern in map
order, wrapping an evaluator failure in InvalidJSONPathError, and feed the
matched pointers through the pointer loop. -/
def collectQueries (fullJson : Json) :
    List (PathQuery × TypeRule) → List BatchItem → Except TransformError (List BatchItem)
  | [], acc => .ok acc
  | (q, rule) :: rest, acc =>
    match resolveQuery q fullJson with
    | .error _ => .error (.invalidJSONPath q)
    | .ok ptrs =>
      match processPointers fullJson q rule ptrs acc with
      | .error e => .error e
      | .ok acc1 => collectQueries fullJson rest acc1

/-- The whole gather phase: the idsBatchMap contents in first-sight order
(idsToBatch of the source, line 311). It performs no write to the
document, exactly as the source performs none before its scatter loop. -/
def collectBatch (fullJson : Json) (ptm : List (PathQuery × TypeRule)) :
    Except TransformError (List BatchItem) :=
  collectQueries fullJson ptm []

/-- Projection of the batch to what batchIds receives (source line 322). -/
def pubEntries (items : List BatchItem) : List BatchEntry :=
  items.map (fun i => ⟨i.id, i.typename⟩)

/-- The inner scatter loop of the source (lines 344 to 382) for one mapped
entry: write the mapped string at every recorded pointer and, always, write
the retained original value at the sibling pointer obtained by replacing
the final segment with the marker-prepended field name (the source default
marker is "@"). Errors carry the working document as it stands, making
partial writes observable. -/
def applyPointers (pre : Option String) (originalId : Json) (m : String) :
    List Pointer → Json → Except (TransformError × Json) Json
  | [], d => .ok d
  | ptr :: rest, d =>
    match d.setPtr ptr (.str m) with
    | none => .error (.invalidJSONPointer ptr, d)
    | some d1 =>
      match ptr.getLast? with
      | none => .error (.invalidJSONPointer ptr, d1)
      | some name =>
        if name = "" then .error (.invalidJSONPointer ptr, d1)
        else
          match d1.setPtr (ptr.dropLast ++ [(pre.getD "@") ++ name]) originalId with
          | none => .error (.invalidJSONPointer (ptr.dropLast ++ [(pre.getD "@") ++ name]), d1)
          | some d2 => applyPointers pre originalId m rest d2

/-- The scatter loop of the source (line 337): entries whose positional
result is null or undefined are skipped entirely; mapped entries are
applied at every recorded pointer. -/
def scatterItems (pre : Option String) :
    List (BatchItem × Option String) → Json → Except (TransformError × Json) Json
  | [], d => .ok d
  | (_, none) :: rest, d => scatterItems pre rest d
  | (item, some m) :: rest, d =>
    match applyPointers pre item.originalId m item.pointers d with
    | .error e => .error e
    | .ok d1 => scatterItems pre rest d1

/-- The strict linear pipeline of transformJsonIds on the working document:
gather, early return on an empty batch (source line 314), one batchIds
call, length validation (source line 332), scatter. Errors carry the
working document as it stood when they were raised; the second component
records the batchIds invocations. -/
def runPipeline (fullJson : Json) (opts : TransformOptions) :
    Except (TransformError × Json) Json × List (List BatchEntry) :=
  match collectBatch fullJson opts.pathTypeMap with
  | .error e => (.error (e, fullJson), [])
  | .ok items =>
    if items.isEmpty then (.ok fullJson, [])
    else
      match opts.batchIds (pubEntries items) with
      | .error _ => (.error (.batchIds, fullJson), [pubEntries items])
      | .ok batchedIds =>
        if batchedIds.length = items.length then
          (scatterItems opts.originalIdPre (items.zip batchedIds) fullJson, [pubEntries items])
        else
          (.error (.batchIdsMismatch items.length batchedIds.length, fullJson), [pubEntries items])

/-- transformJsonIds of the source. The working document starts as the
value of the input (structuredClone is the identity on pure values); what
the mutate option controls is aliasing, made explicit here: with mutate
false the caller object keeps the input value, with mutate true it holds
the working document as the call left it, including partial writes when an
error escaped the scatter loop. -/
def transformJsonIds (input : Json) (opts : TransformOptions) : TransformResult :=
  match runPipeline input opts with
  | (.ok out, calls) => ⟨.ok out, if opts.mutate then out else input, calls⟩
  | (.error (e, d), calls) => ⟨.error e, if opts.mutate then d else input, calls⟩

/-!
### Concrete scenarios used by the claims

Small documents and configurations, shared by several theorems below.
-/

/-- The end-to-end example document of the specification:
the JSON value of the object with users 123 and 789. -/
def usersDoc : Json :=
  .obj [("users", .arr [.obj [("id", .str "123")], .obj [("id", .str "789")]])]

/-- The container-style pattern of the example, matching the user objects
themselves (the JSONPath string form is dollar dot users bracket star). -/
def usersContainerQuery : PathQuery := .segs [.key "users", .wildcard]

/-- The direct pattern addressing the id fields of the user objects. -/
def usersDirectQuery : PathQuery := .segs [.key "users", .wildcard, .key "id"]

/-- The resolver of the example: (User, 123) maps to m1, everything else is
unmapped. -/
def usersResolver : List BatchEntry → Except Unit (List (Option String)) :=
  fun es => .ok (es.map (fun e => if e.id = "123" ∧ e.typename = "User" then some "m1" else none))

/-- The output the specification example expects: first user mapped with
its original preserved, second user untouched. -/
def usersMappedDoc : Json :=
  .obj [("users", .arr [.obj [("id", .str "m1"), ("@id", .str "123")], .obj [("id", .str "789")]])]

/-- A one-field document whose single value is the identifier "1". -/
def oneDoc : Json := .obj [("a", .str "1")]

/-- The pattern addressing the field a at the document root. -/
def qA : PathQuery := .segs [.key "a"]

/-- A resolver mapping every entry to the same string m. -/
def constResolver (m : String) : List BatchEntry → Except Unit (List (Option String)) :=
  fun es => .ok (es.map (fun _ => some m))

/-- A resolver leaving every entry unmapped. -/
def noneResolver : List BatchEntry → Except Unit (List (Option String)) :=
  fun es => .ok (es.map (fun _ => none))

/-- Two locations holding the same identifier "1". -/
def dedupDoc : Json := .obj [("a", .str "1"), ("b", .str "1")]

/-- Configuration reaching both locations of dedupDoc through two distinct
patterns under one typename T, with every entry mapped to m. -/
def dedupOpts : TransformOptions :=
  ⟨[(qA, .lit "T"), (.segs [.key "b"], .lit "T")], constResolver "m", none, false⟩

/-- A document where one location is reachable under two typenames: the
wildcard pattern over the object a and the direct pattern to a.x both
resolve to the pointer of x. -/
def overlapDoc : Json := .obj [("a", .obj [("x", .str "1")]), ("b", .obj [("x", .str "1")])]

/-- Configuration for overlapDoc: the pair (T1, 1) collects the pointers of
a.x and b.x, the pair (T2, 1) collects the pointer of a.x again; T1 maps to
m1 and T2 to m2. -/
def overlapOpts : TransformOptions :=
  ⟨[(.segs [.key "a", .key "x"], .lit "T1"),
    (.segs [.key "b", .key "x"], .lit "T1"),
    (.segs [.key "a", .wildcard], .lit "T2")],
   fun es => .ok (es.map (fun e => if e.typename = "T1" then some "m1" else some "m2")),
   none, false⟩

/-- A document carrying one integer-valued identifier. -/
def numDoc (n : Int) : Json :=
  .obj [("users", .arr [.obj [("id", .num n)]])]

/-- Configuration for numDoc: the direct pattern to the id field, every
entry mapped to m. -/
def numOpts (m : String) : TransformOptions :=
  ⟨[(usersDirectQuery, .lit "User")], constResolver m, none, false⟩

/-- The expected output for numDoc: the mapped string at the id field, the
original number at the sibling field. -/
def numOut (n : Int) (m : String) : Json :=
  .obj [("users", .arr [.obj [("id", .str m), ("@id", .num n)]])]

/-- Two locations holding the empty-string identifier. -/
def emptyIdDoc : Json := .obj [("a", .str ""), ("b", .str "")]

/-!
### Claim theorems
-/

/-- C1, counterexample: with the container-style pattern of the example,
the engine returns the document unchanged and never calls batchIds,
instead of reading the id sub-field of each matched object: a matched
location whose value is an object fails the isValidIdType guard and is
skipped, so the output claimed by the specification does not arise. -/
theorem C1_counterexample :
    (transformJsonIds usersDoc
        ⟨[(usersContainerQuery, .lit "User")], usersResolver, none, false⟩).result
      = .ok usersDoc
    ∧ (transformJsonIds usersDoc
        ⟨[(usersContainerQuery, .lit "User")], usersResolver, none, false⟩).batchCalls = []
    ∧ usersDoc ≠ usersMappedDoc :=
  ⟨rfl, rfl, by simp [usersDoc, usersMappedDoc]⟩

/-- C1, amended: there is no container mode; a pattern matching
object-valued locations contributes nothing (the engine silently skips
values that are not strings or numbers), and the example output of the
specification is obtained with the direct pattern addressing the id fields,
under which user 123 is mapped with its original preserved and the unmapped
user 789 is left untouched with no sibling field added. -/
theorem C1_amended :
    (transformJsonIds usersDoc
        ⟨[(usersContainerQuery, .lit "User")], usersResolver, none, false⟩).result
      = .ok usersDoc
    ∧ (transformJsonIds usersDoc
        ⟨[(usersDirectQuery, .lit "User")], usersResolver, none, false⟩).result
      = .ok usersMappedDoc
    ∧ (transformJsonIds usersDoc
        ⟨[(usersDirectQuery, .lit "User")], usersResolver, none, false⟩).batchCalls
      = [[⟨"123", "User"⟩, ⟨"789", "User"⟩]] :=
  ⟨rfl, rfl, rfl⟩

/-- C5, counterexample: with the preservation option absent (originalIdPre
none), the engine still writes the original value under the @-prefixed
sibling field, so preservation is not off by default. -/
theorem C5_counterexample :
    (transformJsonIds oneDoc ⟨[(qA, .lit "T")], constResolver "m", none, false⟩).result
      = .ok (.obj [("a", .str "m"), ("@a", .str "1")])
    ∧ (Json.obj [("a", .str "m"), ("@a", .str "1")]) ≠ .obj [("a", .str "m")] :=
  ⟨rfl, by simp⟩

/-- C9: the empty string is a valid identifier at the public interface:
isValidIdType accepts it, the two occurrences of the empty id are
deduplicated into the single entry under (T, empty), keeping both pointers,
and batchIds receives exactly that entry. -/
theorem C9_empty_string_valid :
    isValidIdType (.str "") = true
    ∧ (transformJsonIds emptyIdDoc
        ⟨[(qA, .lit "T"), (.segs [.key "b"], .lit "T")], noneResolver, none, false⟩).batchCalls
      = [[⟨"", "T"⟩]]
    ∧ collectBatch emptyIdDoc [(qA, .lit "T"), (.segs [.key "b"], .lit "T")]
      = .ok [⟨"", .str "", "T", [["a"], ["b"]]⟩] :=
  ⟨rfl, rfl, rfl⟩

/-- C2, counterexample: with an empty pathTypeMap the engine returns early
and batchIds is called zero times, not exactly once; and in the overlap
document, where the pair (T1, 1) is referenced from the locations a.x and
b.x while the pair (T2, 1) is referenced from a.x as well, the later write
for (T2, 1) overwrites a.x, so after rewrite the two locations referencing
(T1, 1) hold the different values m2 and m1. -/
theorem C2_counterexample :
    (transformJsonIds oneDoc ⟨[], constResolver "m", none, false⟩).batchCalls = []
    ∧ collectBatch overlapDoc overlapOpts.pathTypeMap
      = .ok [⟨"1", .str "1", "T1", [["a", "x"], ["b", "x"]]⟩,
             ⟨"1", .str "1", "T2", [["a", "x"]]⟩]
    ∧ (transformJsonIds overlapDoc overlapOpts).result
      = .ok (.obj [("a", .obj [("x", .str "m2"), ("@x", .str "1")]),
                   ("b", .obj [("x", .str "m1"), ("@x", .str "1")])])
    ∧ ("m2" : String) ≠ "m1" :=
  ⟨rfl, rfl, rfl, by decide⟩

/-- C8, counterexample: the prefix is not forced nonempty; with the
configured empty prefix the derived sibling name equals the identifier
field name, so the preservation write overwrites the mapped value just
written, and the call returns the identifier field at its original value
instead of the mapped m. -/
theorem C8_counterexample :
    (transformJsonIds oneDoc ⟨[(qA, .lit "T")], constResolver "m", some "", false⟩).result
      = .ok oneDoc
    ∧ oneDoc.getPtr ["a"] = some (.str "1")
    ∧ (Json.str "1") ≠ .str "m" :=
  ⟨rfl, rfl, by simp⟩

/-- C7: with mutate false (the default), the caller object keeps its
pre-call value whatever the pipeline outcome is, because every write
targets the working copy. -/
theorem C7_copy_isolation (input : Json) (opts : TransformOptions)
    (h : opts.mutate = false) :
    (transformJsonIds input opts).callerDoc = input := by
  simp only [transformJsonIds]
  rcases hr : runPipeline input opts with ⟨res, calls⟩
  cases res with
  | ok out => simp [h]
  | error ed => cases ed with
    | mk e d => simp [h]

/-- C7, witness: the example call resolves with an output that differs from
the input while the caller object still holds the input value. -/
theorem C7_copy_isolation_witness :
    (transformJsonIds usersDoc
        ⟨[(usersDirectQuery, .lit "User")], usersResolver, none, false⟩).callerDoc = usersDoc
    ∧ (transformJsonIds usersDoc
        ⟨[(usersDirectQuery, .lit "User")], usersResolver, none, false⟩).result
      = .ok usersMappedDoc
    ∧ usersMappedDoc ≠ usersDoc :=
  ⟨C7_copy_isolation usersDoc _ rfl, rfl, by simp [usersDoc, usersMappedDoc]⟩

/-- An entry list left unmapped in every position skips the whole scatter
phase: zipping any batch with the all-none result list rewrites nothing. -/
theorem scatter_all_none (pre : Option String) (items : List BatchItem) (d : Json) :
    scatterItems pre (items.zip (items.map (fun _ => none))) d = .ok d := by
  induction items generalizing d with
  | nil => rfl
  | cons it rest ih => simpa [scatterItems] using ih d

/-- C3: when batchIds resolves to a list whose length differs from the
deduplicated entry count, the call rejects with the mismatch error carrying
the expected (entry) and received (result) counts, and the caller object is
left at its pre-call value: the error is raised before any write, so the
result is neither truncated nor padded nor partially applied. -/
theorem C3_mismatch (input : Json) (opts : TransformOptions)
    (items : List BatchItem) (res : List (Option String))
    (h1 : collectBatch input opts.pathTypeMap = .ok items)
    (h2 : items ≠ [])
    (h3 : opts.batchIds (pubEntries items) = .ok res)
    (h4 : res.length ≠ items.length) :
    (transformJsonIds input opts).result
      = .error (.batchIdsMismatch items.length res.length)
    ∧ (transformJsonIds input opts).callerDoc = input := by
  have hemp : items.isEmpty = false := by
    cases items with
    | nil => exact absurd rfl h2
    | cons a l => rfl
  have hp : runPipeline input opts
      = (.error (.batchIdsMismatch items.length res.length, input), [pubEntries items]) := by
    unfold runPipeline
    rw [h1]
    simp only [hemp, Bool.false_eq_true, if_false, h3, if_neg h4]
  constructor
  · simp [transformJsonIds, hp]
  · simp [transformJsonIds, hp]

/-- C3, witness: one entry against an empty result list yields the mismatch
error with expected count 1 and received count 0, and the input survives. -/
theorem C3_mismatch_witness :
    (transformJsonIds oneDoc ⟨[(qA, .lit "T")], (fun _ => .ok []), none, false⟩).result
      = .error (.batchIdsMismatch 1 0)
    ∧ (transformJsonIds oneDoc ⟨[(qA, .lit "T")], (fun _ => .ok []), none, false⟩).callerDoc
      = oneDoc :=
  C3_mismatch oneDoc _ [⟨"1", .str "1", "T", [["a"]]⟩] [] rfl (by simp) rfl (by decide)

/-- C4, amended: an entry whose positional result is absent is skipped
outright by the scatter loop: no write at all is performed for it (nothing
is cleared or nulled and no sibling is added on its behalf, though another
mapped entry may still write to a shared location), and consequently a
resolver leaving every entry unmapped returns the document unchanged and
leaves the caller object unchanged. -/
theorem C4_null_untouched :
    (∀ (pre : Option String) (item : BatchItem)
        (rest : List (BatchItem × Option String)) (d : Json),
        scatterItems pre ((item, none) :: rest) d = scatterItems pre rest d)
    ∧ ∀ (input : Json) (opts : TransformOptions) (items : List BatchItem),
        collectBatch input opts.pathTypeMap = .ok items →
        (∀ es, opts.batchIds es = .ok (es.map (fun _ => none))) →
        (transformJsonIds input opts).result = .ok input
        ∧ (transformJsonIds input opts).callerDoc = input := by
  constructor
  · intro pre item rest d
    rfl
  · intro input opts items h1 h2
    have hp : runPipeline input opts = (.ok input, if items.isEmpty then [] else [pubEntries items]) := by
      unfold runPipeline
      rw [h1]
      cases items with
      | nil => rfl
      | cons it rest =>
        simp only [List.isEmpty_cons, Bool.false_eq_true, if_false, h2]
        have hlen : ((pubEntries (it :: rest)).map (fun _ => (none : Option String))).length
            = (it :: rest).length := by
          simp [pubEntries]
        rw [if_pos hlen]
        have hmap : (pubEntries (it :: rest)).map (fun _ => (none : Option String))
            = (it :: rest).map (fun _ => none) := by
          unfold pubEntries
          rw [List.map_map]
          rfl
        rw [hmap, scatter_all_none]
    constructor
    · simp [transformJsonIds, hp]
    · simp [transformJsonIds, hp]

/-- C4, witness: the no-op resolver over the example document returns it
unchanged. -/
theorem C4_null_untouched_witness :
    (transformJsonIds usersDoc
        ⟨[(usersDirectQuery, .lit "User")], noneResolver, none, false⟩).result = .ok usersDoc
    ∧ (transformJsonIds usersDoc
        ⟨[(usersDirectQuery, .lit "User")], noneResolver, none, false⟩).callerDoc = usersDoc :=
  C4_null_untouched.2 usersDoc _
    [⟨"123", .str "123", "User", [["users", "0", "id"]]⟩,
     ⟨"789", .str "789", "User", [["users", "1", "id"]]⟩]
    rfl (fun _ => rfl)

/-- Every failure the inner scatter loop can raise is a pointer failure. -/
theorem applyPointers_error_kind (pre : Option String) (o : Json) (m : String) :
    ∀ (ptrs : List Pointer) (d : Json) (e : TransformError) (dd : Json),
    applyPointers pre o m ptrs d = .error (e, dd) → isPointerError e = true := by
  intro ptrs
  induction ptrs with
  | nil =>
    intro d e dd h
    exact absurd h (by simp [applyPointers])
  | cons ptr rest ih =>
    intro d e dd h
    unfold applyPointers at h
    repeat' split at h
    all_goals
      first
      | (simp only [Except.error.injEq, Prod.mk.injEq] at h
         rw [← h.1]
         rfl)
      | exact ih _ e dd h

/-- Every failure the scatter phase can raise is a pointer failure. -/
theorem scatterItems_error_kind (pre : Option String) :
    ∀ (pairs : List (BatchItem × Option String)) (d : Json) (e : TransformError) (dd : Json),
    scatterItems pre pairs d = .error (e, dd) → isPointerError e = true := by
  intro pairs
  induction pairs with
  | nil =>
    intro d e dd h
    exact absurd h (by simp [scatterItems])
  | cons pr rest ih =>
    intro d e dd h
    cases pr with
    | mk item mp =>
      cases mp with
      | none => exact ih d e dd h
      | some m =>
        unfold scatterItems at h
        split at h
        next ed ha =>
          simp only [Except.error.injEq] at h
          subst h
          exact applyPointers_error_kind pre item.originalId m item.pointers d e dd ha
        next d1 ha => exact ih d1 e dd h

/-- A successful pipeline determines each observable field of the call. -/
theorem transform_ok_parts (input : Json) (opts : TransformOptions)
    (out : Json) (calls : List (List BatchEntry))
    (h : runPipeline input opts = (.ok out, calls)) :
    (transformJsonIds input opts).result = .ok out
    ∧ (transformJsonIds input opts).callerDoc = (if opts.mutate then out else input)
    ∧ (transformJsonIds input opts).batchCalls = calls := by
  refine ⟨?_, ?_, ?_⟩ <;> simp [transformJsonIds, h]

/-- A failed pipeline determines each observable field of the call. -/
theorem transform_error_parts (input : Json) (opts : TransformOptions)
    (e : TransformError) (d : Json) (calls : List (List BatchEntry))
    (h : runPipeline input opts = (.error (e, d), calls)) :
    (transformJsonIds input opts).result = .error e
    ∧ (transformJsonIds input opts).callerDoc = (if opts.mutate then d else input)
    ∧ (transformJsonIds input opts).batchCalls = calls := by
  refine ⟨?_, ?_, ?_⟩ <;> simp [transformJsonIds, h]

/-- A failed pipeline whose error is not a pointer failure carries the
working document unmodified: the gather phase performs no write, and every
error raised up to and including the length validation precedes the scatter
loop. -/
theorem runPipeline_error_doc (input : Json) (opts : TransformOptions)
    (e : TransformError) (d : Json) (calls : List (List BatchEntry))
    (h : runPipeline input opts = (.error (e, d), calls))
    (h2 : isPointerError e = false) : d = input := by
  unfold runPipeline at h
  repeat' split at h
  all_goals
    first
    | (simp only [Prod.mk.injEq, Except.error.injEq] at h
       exact h.1.2.symm)
    | (simp only [Prod.mk.injEq] at h
       exact absurd (scatterItems_error_kind opts.originalIdPre _ input e d h.1)
         (by simp [h2]))
    | simp at h

/-- C10: any failure raised before the scatter phase, that is any failure
other than a pointer-write failure (invalid pattern, throwing type rule,
rejecting batchIds, length mismatch), leaves the caller object at its
pre-call value even under mutate true, because the pipeline performs no
write to the document before the scatter loop. -/
theorem C10_prescatter_isolation (input : Json) (opts : TransformOptions) (e : TransformError)
    (h1 : (transformJsonIds input opts).result = .error e)
    (h2 : isPointerError e = false) :
    (transformJsonIds input opts).callerDoc = input := by
  rcases hr : runPipeline input opts with ⟨res, calls⟩
  cases res with
  | ok out =>
    rw [(transform_ok_parts input opts out calls hr).1] at h1
    simp at h1
  | error ed =>
    rcases ed with ⟨e1, d⟩
    have hparts := transform_error_parts input opts e1 d calls hr
    rw [hparts.1] at h1
    simp only [Except.error.injEq] at h1
    subst h1
    rw [hparts.2.1, runPipeline_error_doc input opts e1 d calls hr h2]
    exact ite_self input

/-- C10, witness: a malformed pattern under mutate true rejects with the
invalid-path error and the caller object is untouched. -/
theorem C10_prescatter_isolation_witness :
    (transformJsonIds oneDoc
        ⟨[(.malformed "$,[", .lit "T")], constResolver "m", none, true⟩).callerDoc = oneDoc :=
  C10_prescatter_isolation oneDoc _ (.invalidJSONPath (.malformed "$,[")) rfl rfl

/-- Inserting an occurrence into the dedupe accumulator either leaves the
key list unchanged (repeat sight) or appends the new key (first sight). -/
theorem addToBatch_keys (acc : List BatchItem) (t s : String) (o : Json) (p : Pointer) :
    (addToBatch acc t s o p).map itemKey
      = if acc.any (fun e => itemKey e == t ++ ":" ++ s) then acc.map itemKey
        else acc.map itemKey ++ [t ++ ":" ++ s] := by
  unfold addToBatch
  by_cases h : acc.any (fun e => itemKey e == t ++ ":" ++ s)
  · rw [if_pos h, if_pos h, List.map_map]
    refine List.map_congr_left ?_
    intro e _
    simp only [Function.comp_apply]
    split <;> rfl
  · rw [if_neg h, if_neg h]
    simp [itemKey]

/-- The dedupe accumulator keeps its keys pairwise distinct. -/
theorem addToBatch_nodup (acc : List BatchItem) (t s : String) (o : Json) (p : Pointer)
    (h : (acc.map itemKey).Nodup) : ((addToBatch acc t s o p).map itemKey).Nodup := by
  rw [addToBatch_keys]
  by_cases hx : acc.any (fun e => itemKey e == t ++ ":" ++ s)
  · rw [if_pos hx]
    exact h
  · rw [if_neg hx]
    have hnot : (t ++ ":" ++ s) ∉ acc.map itemKey := by
      intro hm
      rcases List.mem_map.mp hm with ⟨e, he, hk⟩
      exact hx (List.any_eq_true.mpr ⟨e, he, by simp [hk]⟩)
    simp [List.nodup_append, h, hnot]

/-- Processing one pointer preserves the distinct-keys invariant. -/
theorem processPointer_nodup (fullJson : Json) (q : PathQuery) (rule : TypeRule)
    (acc acc1 : List BatchItem) (ptr : Pointer)
    (h : processPointer fullJson q rule acc ptr = .ok acc1)
    (hnd : (acc.map itemKey).Nodup) : (acc1.map itemKey).Nodup := by
  unfold processPointer at h
  split at h
  · exact Except.noConfusion h
  · split at h
    · injection h with h2
      rw [← h2]
      exact hnd
    · split at h
      · split at h
        · exact Except.noConfusion h
        · split at h
          · injection h with h2
            rw [← h2]
            exact addToBatch_nodup _ _ _ _ _ hnd
          · split at h
            · injection h with h2
              rw [← h2]
              exact addToBatch_nodup _ _ _ _ _ hnd
            · exact Except.noConfusion h
      · injection h with h2
        rw [← h2]
        exact hnd

/-- The pointer loop preserves the distinct-keys invariant. -/
theorem processPointers_nodup (fullJson : Json) (q : PathQuery) (rule : TypeRule) :
    ∀ (ptrs : List Pointer) (acc acc1 : List BatchItem),
    processPointers fullJson q rule ptrs acc = .ok acc1 →
    (acc.map itemKey).Nodup → (acc1.map itemKey).Nodup := by
  intro ptrs
  induction ptrs with
  | nil =>
    intro acc acc1 h hnd
    simp only [processPointers, Except.ok.injEq] at h
    rw [← h]
    exact hnd
  | cons ptr rest ih =>
    intro acc acc1 h hnd
    unfold processPointers at h
    split at h
    · exact Except.noConfusion h
    · next accMid hp =>
        exact ih accMid acc1 h (processPointer_nodup fullJson q rule acc accMid ptr hp hnd)

/-- The pattern loop preserves the distinct-keys invariant. -/
theorem collectQueries_nodup (fullJson : Json) :
    ∀ (ptm : List (PathQuery × TypeRule)) (acc acc1 : List BatchItem),
    collectQueries fullJson ptm acc = .ok acc1 →
    (acc.map itemKey).Nodup → (acc1.map itemKey).Nodup := by
  intro ptm
  induction ptm with
  | nil =>
    intro acc acc1 h hnd
    simp only [collectQueries, Except.ok.injEq] at h
    rw [← h]
    exact hnd
  | cons pr rest ih =>
    intro acc acc1 h hnd
    cases pr with
    | mk q rule =>
      unfold collectQueries at h
      split at h
      · exact Except.noConfusion h
      · split at h
        · exact Except.noConfusion h
        · next accMid hp =>
            exact ih accMid acc1 h
              (processPointers_nodup fullJson q rule _ acc accMid hp hnd)

/-- The gathered batch has pairwise distinct dedupe keys, hence at most one
entry per distinct (typename, id) pair. -/
theorem collectBatch_nodup (fullJson : Json) (ptm : List (PathQuery × TypeRule))
    (items : List BatchItem) (h : collectBatch fullJson ptm = .ok items) :
    (pubEntries items).Nodup := by
  have hk : (items.map itemKey).Nodup :=
    collectQueries_nodup fullJson ptm [] items h (by simp)
  have hfac : items.map itemKey = (pubEntries items).map (fun e => e.typename ++ ":" ++ e.id) := by
    unfold pubEntries
    rw [List.map_map]
    rfl
  rw [hfac] at hk
  exact hk.of_map

/-- The batchCalls log equals the second pipeline component. -/
theorem transform_batchCalls (input : Json) (opts : TransformOptions) :
    (transformJsonIds input opts).batchCalls = (runPipeline input opts).2 := by
  rcases hr : runPipeline input opts with ⟨res, calls⟩
  cases res with
  | ok out =>
    rw [(transform_ok_parts input opts out calls hr).2.2]
  | error ed =>
    rcases ed with ⟨e, d⟩
    rw [(transform_error_parts input opts e d calls hr).2.2]

/-- A nonempty gathered batch is passed to batchIds as the single call of
the invocation, whatever batchIds then does. -/
theorem runPipeline_calls_of_collect (input : Json) (opts : TransformOptions)
    (items : List BatchItem)
    (h1 : collectBatch input opts.pathTypeMap = .ok items) (h2 : items ≠ []) :
    (runPipeline input opts).2 = [pubEntries items] := by
  have hemp : items.isEmpty = false := by
    cases items with
    | nil => exact absurd rfl h2
    | cons a l => rfl
  unfold runPipeline
  rw [h1]
  simp only [hemp, Bool.false_eq_true, if_false]
  split
  · rfl
  · split
    · rfl
    · rfl

/-- C2, amended: batchIds is called at most once per invocation, exactly
once when the gather phase collects at least one entry and zero times when
it collects none; the single call receives at most one entry per distinct
(typename, id) pair; and in the dedup scenario, where the pair (T, 1) is
referenced from two locations through two distinct patterns, batchIds
receives exactly one entry for the pair and after rewrite both locations
hold the same mapped value m. -/
theorem C2_amended :
    (∀ (input : Json) (opts : TransformOptions),
        (transformJsonIds input opts).batchCalls.length ≤ 1)
    ∧ (∀ (input : Json) (opts : TransformOptions) (items : List BatchItem),
        collectBatch input opts.pathTypeMap = .ok items → items ≠ [] →
        (transformJsonIds input opts).batchCalls = [pubEntries items])
    ∧ (∀ (input : Json) (opts : TransformOptions) (items : List BatchItem),
        collectBatch input opts.pathTypeMap = .ok items →
        (pubEntries items).Nodup)
    ∧ ((transformJsonIds dedupDoc dedupOpts).batchCalls = [[⟨"1", "T"⟩]]
        ∧ (transformJsonIds dedupDoc dedupOpts).result
          = .ok (.obj [("a", .str "m"), ("b", .str "m"), ("@a", .str "1"), ("@b", .str "1")])) := by
  refine ⟨?_, ?_, ?_, rfl, rfl⟩
  · intro input opts
    rw [transform_batchCalls input opts]
    unfold runPipeline
    split
    · simp
    · split
      · simp
      · split
        · simp
        · split
          · simp
          · simp
  · intro input opts items h1 h2
    rw [transform_batchCalls input opts]
    exact runPipeline_calls_of_collect input opts items h1 h2
  · intro input opts items h1
    exact collectBatch_nodup input opts.pathTypeMap items h1

/-- C2, witness for the amended claim: the dedup scenario satisfies the
hypotheses, its single batchIds call carrying the one deduplicated entry. -/
theorem C2_amended_witness :
    (transformJsonIds dedupDoc dedupOpts).batchCalls
      = [pubEntries [⟨"1", .str "1", "T", [["a"], ["b"]]⟩]]
    ∧ (pubEntries [⟨"1", .str "1", "T", [["a"], ["b"]]⟩]).Nodup :=
  ⟨C2_amended.2.1 dedupDoc dedupOpts [⟨"1", .str "1", "T", [["a"], ["b"]]⟩] rfl (by simp),
   C2_amended.2.2.1 dedupDoc dedupOpts [⟨"1", .str "1", "T", [["a"], ["b"]]⟩] rfl⟩

/-- Every entry the dedupe accumulator gains keeps the string coercion of
its retained original value as its id. -/
theorem addToBatch_good (acc : List BatchItem) (t : String) (o : Json) (p : Pointer)
    (hacc : ∀ it ∈ acc, it.id = idStringOf it.originalId) :
    ∀ it ∈ addToBatch acc t (idStringOf o) o p, it.id = idStringOf it.originalId := by
  intro it hm
  unfold addToBatch at hm
  split at hm
  · rcases List.mem_map.mp hm with ⟨e, he, hk⟩
    rw [← hk]
    split
    · exact hacc e he
    · exact hacc e he
  · rcases List.mem_append.mp hm with hin | hone
    · exact hacc it hin
    · rw [List.mem_singleton.mp hone]

/-- Processing one pointer preserves the id-coercion invariant. -/
theorem processPointer_good (fullJson : Json) (q : PathQuery) (rule : TypeRule)
    (acc acc1 : List BatchItem) (ptr : Pointer)
    (h : processPointer fullJson q rule acc ptr = .ok acc1)
    (hacc : ∀ it ∈ acc, it.id = idStringOf it.originalId) :
    ∀ it ∈ acc1, it.id = idStringOf it.originalId := by
  unfold processPointer at h
  split at h
  · exact Except.noConfusion h
  · split at h
    · injection h with h2
      rw [← h2]
      exact hacc
    · split at h
      · split at h
        · exact Except.noConfusion h
        · split at h
          · injection h with h2
            rw [← h2]
            exact addToBatch_good acc _ _ ptr hacc
          · split at h
            · injection h with h2
              rw [← h2]
              exact addToBatch_good acc _ _ ptr hacc
            · exact Except.noConfusion h
      · injection h with h2
        rw [← h2]
        exact hacc

/-- The pointer loop preserves the id-coercion invariant. -/
theorem processPointers_good (fullJson : Json) (q : PathQuery) (rule : TypeRule) :
    ∀ (ptrs : List Pointer) (acc acc1 : List BatchItem),
    processPointers fullJson q rule ptrs acc = .ok acc1 →
    (∀ it ∈ acc, it.id = idStringOf it.originalId) →
    ∀ it ∈ acc1, it.id = idStringOf it.originalId := by
  intro ptrs
  induction ptrs with
  | nil =>
    intro acc acc1 h hacc
    simp only [processPointers, Except.ok.injEq] at h
    rw [← h]
    exact hacc
  | cons ptr rest ih =>
    intro acc acc1 h hacc
    unfold processPointers at h
    split at h
    · exact Except.noConfusion h
    · next accMid hp =>
        exact ih accMid acc1 h (processPointer_good fullJson q rule acc accMid ptr hp hacc)

/-- The pattern loop preserves the id-coercion invariant. -/
theorem collectQueries_good (fullJson : Json) :
    ∀ (ptm : List (PathQuery × TypeRule)) (acc acc1 : List BatchItem),
    collectQueries fullJson ptm acc = .ok acc1 →
    (∀ it ∈ acc, it.id = idStringOf it.originalId) →
    ∀ it ∈ acc1, it.id = idStringOf it.originalId := by
  intro ptm
  induction ptm with
  | nil =>
    intro acc acc1 h hacc
    simp only [collectQueries, Except.ok.injEq] at h
    rw [← h]
    exact hacc
  | cons pr rest ih =>
    intro acc acc1 h hacc
    cases pr with
    | mk q rule =>
      unfold collectQueries at h
      split at h
      · exact Except.noConfusion h
      · split at h
        · exact Except.noConfusion h
        · next accMid hp =>
            exact ih accMid acc1 h (processPointers_good fullJson q rule _ acc accMid hp hacc)

/-- C6: a numeric identifier value reaches batchIds in its decimal string
form (every gathered entry keeps the string coercion of its retained
original value as its id), and once mapped, the identifier field holds the
mapped string while the sibling field holds the original number, not a
stringified copy (shown on the document carrying the number 123). -/
theorem C6_numeric :
    (∀ (input : Json) (ptm : List (PathQuery × TypeRule)) (items : List BatchItem),
        collectBatch input ptm = .ok items →
        ∀ it ∈ items, ∀ n : Int, it.originalId = .num n → it.id = toString n)
    ∧ (transformJsonIds (numDoc 123) (numOpts "m9")).result = .ok (numOut 123 "m9")
    ∧ (transformJsonIds (numDoc 123) (numOpts "m9")).batchCalls = [[⟨"123", "User"⟩]]
    ∧ numOut 123 "m9" ≠ .obj [("users", .arr [.obj [("id", .str "m9"), ("@id", .str "123")]])] := by
  refine ⟨?_, rfl, rfl, by simp [numOut]⟩
  intro input ptm items h it hm n ho
  have hg : it.id = idStringOf it.originalId :=
    collectQueries_good input ptm [] items h (by simp) it hm
  rw [hg, ho]
  rfl

/-- C6, witness: the concrete entry gathered from the document holding the
number 5 carries the id string 5. -/
theorem C6_numeric_witness :
    (⟨"5", .num 5, "User", [["users", "0", "id"]]⟩ : BatchItem).id = toString (5 : Int) :=
  C6_numeric.1 (numDoc 5) [(usersDirectQuery, .lit "User")]
    [⟨"5", .num 5, "User", [["users", "0", "id"]]⟩] rfl
    ⟨"5", .num 5, "User", [["users", "0", "id"]]⟩ (by simp) 5 rfl

/-- C5, amended: original-value preservation is unconditional: every
successful per-pointer scatter step writes the mapped string at the
pointer and then always writes the retained original value at the sibling
pointer whose final token is the configured marker (default "@") prepended
to the field name; the originalIdPrefix option only changes that marker. -/
theorem C5_amended :
    (∀ (pre : Option String) (o : Json) (m : String) (ptr : Pointer) (d d2 : Json),
        applyPointers pre o m [ptr] d = .ok d2 →
        ∃ d1 name, d.setPtr ptr (.str m) = some d1
          ∧ ptr.getLast? = some name ∧ name ≠ ""
          ∧ d1.setPtr (ptr.dropLast ++ [(pre.getD "@") ++ name]) o = some d2)
    ∧ (transformJsonIds oneDoc ⟨[(qA, .lit "T")], constResolver "m", none, false⟩).result
      = .ok (.obj [("a", .str "m"), ("@a", .str "1")])
    ∧ (transformJsonIds oneDoc ⟨[(qA, .lit "T")], constResolver "m", some "orig_", false⟩).result
      = .ok (.obj [("a", .str "m"), ("orig_a", .str "1")]) := by
  refine ⟨?_, rfl, rfl⟩
  intro pre o m ptr d d2 h
  unfold applyPointers at h
  split at h
  · exact Except.noConfusion h
  · next d1 h1 =>
      split at h
      · exact Except.noConfusion h
      · next name h2 =>
          split at h
          · exact Except.noConfusion h
          · next h3 =>
              split at h
              · exact Except.noConfusion h
              · next d2x h4 =>
                  injection h with h5
                  exact ⟨d1, name, h1, h2, h3, h5 ▸ h4⟩

/-- C5, witness: the per-pointer step of the default-marker call performs
the sibling write at the field named by prepending "@". -/
theorem C5_amended_witness :
    ∃ d1 name, oneDoc.setPtr ["a"] (.str "m") = some d1
      ∧ (["a"] : Pointer).getLast? = some name ∧ name ≠ ""
      ∧ d1.setPtr ((["a"] : Pointer).dropLast ++ [((none : Option String).getD "@") ++ name])
          (.str "1")
        = some (.obj [("a", .str "m"), ("@a", .str "1")]) :=
  C5_amended.1 none (.str "1") "m" ["a"] oneDoc (.obj [("a", .str "m"), ("@a", .str "1")]) rfl

/-- Looking up the key just assigned yields the assigned value. -/
theorem lookupField_setField_self (fs : List (String × Json)) (k : String) (v : Json) :
    lookupField (setField fs k v) k = some v := by
  induction fs with
  | nil => simp [setField, lookupField]
  | cons kv rest ih =>
    cases kv with
    | mk k0 v0 =>
      unfold setField
      by_cases h : k0 = k
      · rw [if_pos h]
        simp [lookupField]
      · rw [if_neg h]
        unfold lookupField
        rw [if_neg h]
        exact ih

/-- Assigning one key leaves the lookup of any other key unchanged. -/
theorem lookupField_setField_ne (fs : List (String × Json)) (k k1 : String) (v : Json)
    (hne : k1 ≠ k) : lookupField (setField fs k v) k1 = lookupField fs k1 := by
  induction fs with
  | nil =>
    simp only [setField, lookupField]
    rw [if_neg (fun h : k = k1 => hne h.symm)]
  | cons kv rest ih =>
    cases kv with
    | mk k0 v0 =>
      unfold setField
      by_cases h : k0 = k
      · rw [if_pos h]
        subst h
        unfold lookupField
        rw [if_neg (fun hk : k0 = k1 => hne hk.symm), if_neg (fun hk : k0 = k1 => hne hk.symm)]
      · rw [if_neg h]
        unfold lookupField
        by_cases h1 : k0 = k1
        · rw [if_pos h1, if_pos h1]
        · rw [if_neg h1, if_neg h1]
          exact ih

/-- What a successful index interpretation means: the token is the decimal
form of an in-bounds index. -/
theorem arrIdx_spec (tok : String) (len i : Nat) (h : arrIdx tok len = some i) :
    toString i = tok ∧ i < len := by
  unfold arrIdx at h
  have hp := List.find?_some h
  have hm := List.mem_of_find?_eq_some h
  exact ⟨by simpa using hp, List.mem_range.mp hm⟩

/-- Distinct tokens never interpret to the same index. -/
theorem arrIdx_inj (k1 k2 : String) (len i1 i2 : Nat)
    (h1 : arrIdx k1 len = some i1) (h2 : arrIdx k2 len = some i2) (hne : k1 ≠ k2) :
    i1 ≠ i2 := by
  intro he
  apply hne
  rw [← (arrIdx_spec k1 len i1 h1).1, ← (arrIdx_spec k2 len i2 h2).1, he]

/-- Dereferencing below an empty object fails. -/
theorem getPtr_empty_obj (tok : String) (rest : Pointer) :
    (Json.obj []).getPtr (tok :: rest) = none := rfl

/-- Dereferencing below an empty array fails. -/
theorem getPtr_empty_arr (tok : String) (rest : Pointer) :
    (Json.arr []).getPtr (tok :: rest) = none := rfl

/-- Prepending a nonempty marker always changes a string. -/
theorem append_left_ne (pre s : String) (h : pre ≠ "") : pre ++ s ≠ s := by
  intro hc
  apply h
  have hl := congrArg String.length hc
  rw [String.length_append] at hl
  have hz : pre.length = 0 := by omega
  cases pre with
  | mk data =>
    cases data with
    | nil => rfl
    | cons c cs => simp [String.length] at hz

/-- Reading back the element just set. -/
theorem getD_set_self (xs : List Json) (i : Nat) (v : Json) (h : i < xs.length) :
    (xs.set i v).getD i .null = v := by
  simp [List.getD, List.getElem?_set_self', List.getElem?_eq_getElem h]

/-- Setting one element leaves the others unchanged. -/
theorem getD_set_ne (xs : List Json) (i j : Nat) (v : Json) (h : i ≠ j) :
    (xs.set i v).getD j .null = xs.getD j .null := by
  simp [List.getD, List.getElem?_set_ne h]

/-- Reading back a pointer just written yields the written value. -/
theorem getPtr_setPtr_self : ∀ (p : Pointer) (j v j' : Json),
    j.setPtr p v = some j' → j'.getPtr p = some v := by
  intro p
  induction p with
  | nil =>
    intro j v j' h
    exact absurd h (by simp [Json.setPtr])
  | cons tok rest ih =>
    intro j v j' h
    cases rest with
    | nil =>
      cases j with
      | obj fs =>
        simp only [Json.setPtr, Option.some.injEq] at h
        rw [← h]
        simp only [Json.getPtr, Json.child]
        rw [lookupField_setField_self]
      | arr xs =>
        simp only [Json.setPtr] at h
        split at h
        · next i ha =>
            injection h with h2
            rw [← h2]
            simp only [Json.getPtr, Json.child, List.length_set]
            rw [ha]
            show some ((xs.set i v).getD i Json.null) = some v
            rw [getD_set_self xs i v (arrIdx_spec tok xs.length i ha).2]
        · exact Option.noConfusion h
      | null => simp [Json.setPtr] at h
      | bool b => simp [Json.setPtr] at h
      | num n => simp [Json.setPtr] at h
      | str s => simp [Json.setPtr] at h
    | cons next rest2 =>
      cases j with
      | obj fs =>
        simp only [Json.setPtr] at h
        split at h
        · next c hl =>
            split at h
            · next c1 hs =>
                injection h with h2
                rw [← h2]
                simp only [Json.getPtr, Json.child]
                rw [lookupField_setField_self]
                exact ih c v c1 hs
            · exact Option.noConfusion h
        · next hl =>
            split at h
            · next c1 hs =>
                injection h with h2
                rw [← h2]
                simp only [Json.getPtr, Json.child]
                rw [lookupField_setField_self]
                exact ih _ v c1 hs
            · exact Option.noConfusion h
      | arr xs =>
        simp only [Json.setPtr] at h
        split at h
        · next i ha =>
            split at h
            · next c1 hs =>
                injection h with h2
                rw [← h2]
                simp only [Json.getPtr, Json.child, List.length_set]
                rw [ha]
                show ((xs.set i c1).getD i Json.null).getPtr (next :: rest2) = some v
                rw [getD_set_self xs i c1 (arrIdx_spec tok xs.length i ha).2]
                exact ih _ v c1 hs
            · exact Option.noConfusion h
        · exact Option.noConfusion h
      | null => simp [Json.setPtr] at h
      | bool b => simp [Json.setPtr] at h
      | num n => simp [Json.setPtr] at h
      | str s => simp [Json.setPtr] at h

/-- Writing under a final token leaves reads under any other final token
with the same parent path unchanged. -/
theorem getPtr_setPtr_ne_last : ∀ (q : Pointer) (k1 k2 : String) (v j j' : Json),
    k1 ≠ k2 → j.setPtr (q ++ [k2]) v = some j' →
    j'.getPtr (q ++ [k1]) = j.getPtr (q ++ [k1]) := by
  intro q
  induction q with
  | nil =>
    intro k1 k2 v j j' hne h
    cases j with
    | obj fs =>
      simp only [List.nil_append, Json.setPtr, Option.some.injEq] at h
      rw [← h]
      simp only [List.nil_append, Json.getPtr, Json.child]
      rw [lookupField_setField_ne fs k2 k1 v hne]
    | arr xs =>
      simp only [List.nil_append, Json.setPtr] at h
      split at h
      · next i2 ha2 =>
          injection h with h2
          rw [← h2]
          simp only [List.nil_append, Json.getPtr, Json.child, List.length_set]
          cases ha1 : arrIdx k1 xs.length with
          | none => rfl
          | some i1 =>
              show some ((xs.set i2 v).getD i1 Json.null) = some (xs.getD i1 Json.null)
              rw [getD_set_ne xs i2 i1 v (arrIdx_inj k2 k1 xs.length i2 i1 ha2 ha1 hne.symm)]
      · exact Option.noConfusion h
    | null => simp [Json.setPtr] at h
    | bool b => simp [Json.setPtr] at h
    | num n => simp [Json.setPtr] at h
    | str s => simp [Json.setPtr] at h
  | cons tok q' ih =>
    intro k1 k2 v j j' hne h
    obtain ⟨next, rest, hnr⟩ : ∃ a l, q' ++ [k2] = a :: l := by
      cases q' with
      | nil => exact ⟨k2, [], rfl⟩
      | cons x xs => exact ⟨x, xs ++ [k2], rfl⟩
    rw [List.cons_append, hnr] at h
    cases j with
    | obj fs =>
      simp only [Json.setPtr] at h
      split at h
      · next c hl =>
          split at h
          · next c1 hs =>
              injection h with h2
              rw [← h2]
              simp only [Json.getPtr, Json.child]
              rw [lookupField_setField_self, hl]
              show c1.getPtr (q' ++ [k1]) = c.getPtr (q' ++ [k1])
              exact ih k1 k2 v c c1 hne (by rw [hnr]; exact hs)
          · exact Option.noConfusion h
      · next hl =>
          split at h
          · next c1 hs =>
              injection h with h2
              rw [← h2]
              simp only [Json.getPtr, Json.child]
              rw [lookupField_setField_self, hl]
              show c1.getPtr (q' ++ [k1]) = none
              rw [ih k1 k2 v _ c1 hne (by rw [hnr]; exact hs)]
              obtain ⟨a1, l1, hq1⟩ : ∃ a l, q' ++ [k1] = a :: l := by
                cases q' with
                | nil => exact ⟨k1, [], rfl⟩
                | cons x xs => exact ⟨x, xs ++ [k1], rfl⟩
              rw [hq1]
              by_cases hidx : isIndexToken next
              · rw [if_pos hidx]
                exact getPtr_empty_arr a1 l1
              · rw [if_neg hidx]
                exact getPtr_empty_obj a1 l1
          · exact Option.noConfusion h
    | arr xs =>
      simp only [Json.setPtr] at h
      split at h
      · next i ha =>
          split at h
          · next c1 hs =>
              injection h with h2
              rw [← h2]
              simp only [Json.getPtr, Json.child, List.length_set]
              rw [ha]
              show ((xs.set i c1).getD i Json.null).getPtr (q' ++ [k1])
                  = (xs.getD i Json.null).getPtr (q' ++ [k1])
              rw [getD_set_self xs i c1 (arrIdx_spec tok xs.length i ha).2]
              exact ih k1 k2 v _ c1 hne (by rw [hnr]; exact hs)
          · exact Option.noConfusion h
      · exact Option.noConfusion h
    | null => simp [Json.setPtr] at h
    | bool b => simp [Json.setPtr] at h
    | num n => simp [Json.setPtr] at h
    | str s => simp [Json.setPtr] at h

/-- Dissection of one successful per-pointer scatter step: the mapped write
succeeded, the field name is the nonempty final token, and the sibling
write with the prepended marker succeeded and produced the final document. -/
theorem applyPointers_single (pre : Option String) (o : Json) (m : String)
    (ptr : Pointer) (d d2 : Json)
    (h : applyPointers pre o m [ptr] d = .ok d2) :
    ∃ d1 name, d.setPtr ptr (.str m) = some d1
      ∧ ptr.getLast? = some name ∧ name ≠ ""
      ∧ d1.setPtr (ptr.dropLast ++ [(pre.getD "@") ++ name]) o = some d2 := by
  unfold applyPointers at h
  split at h
  · exact Except.noConfusion h
  · next d1 h1 =>
      split at h
      · exact Except.noConfusion h
      · next name h2 =>
          split at h
          · exact Except.noConfusion h
          · next h3 =>
              split at h
              · exact Except.noConfusion h
              · next d2x h4 =>
                  injection h with h5
                  exact ⟨d1, name, h1, h2, h3, h5 ▸ h4⟩

/-- C8, amended: for every nonempty configured marker the derived sibling
key differs from the identifier key, and the preservation write never
overwrites the mapped value just written: after a successful per-pointer
scatter step the identifier pointer still reads the mapped string. -/
theorem C8_amended :
    (∀ (pre name : String), pre ≠ "" → pre ++ name ≠ name)
    ∧ ∀ (po : Option String) (o : Json) (m : String) (ptr : Pointer) (d d2 : Json),
        po.getD "@" ≠ "" →
        applyPointers po o m [ptr] d = .ok d2 →
        d2.getPtr ptr = some (.str m) := by
  constructor
  · intro pre name h
    exact append_left_ne pre name h
  · intro po o m ptr d d2 hpre h
    obtain ⟨d1, name, h1, h2, h3, h4⟩ := applyPointers_single po o m ptr d d2 h
    have hptr : ptr.dropLast ++ [name] = ptr := List.dropLast_append_getLast? name h2
    rw [← hptr]
    rw [getPtr_setPtr_ne_last ptr.dropLast name ((po.getD "@") ++ name) o d1 d2
      (Ne.symm (append_left_ne (po.getD "@") name hpre)) h4]
    rw [hptr]
    exact getPtr_setPtr_self ptr d (.str m) d1 h1

/-- C8, witness: with the default marker, the step that mapped the field a
to m and preserved the original under the sibling still reads m at a. -/
theorem C8_amended_witness :
    (Json.obj [("a", .str "m"), ("@a", .str "1")]).getPtr ["a"] = some (.str "m") :=
  C8_amended.2 none (.str "1") "m" ["a"] oneDoc
    (.obj [("a", .str "m"), ("@a", .str "1")]) (by decide) rfl

/-- C4, counterexample: a location whose identifier pair resolved to null
is not always left untouched, because another mapped pair can reference
the same location: in the overlap document the pair (T1, 1) resolves to
null and references a.x and b.x, yet a.x is rewritten to m2 (and the
sibling field added) by the mapped pair (T2, 1) that also matched a.x. -/
theorem C4_counterexample :
    collectBatch overlapDoc overlapOpts.pathTypeMap
      = .ok [⟨"1", .str "1", "T1", [["a", "x"], ["b", "x"]]⟩,
             ⟨"1", .str "1", "T2", [["a", "x"]]⟩]
    ∧ (transformJsonIds overlapDoc
        ⟨overlapOpts.pathTypeMap,
         (fun es => .ok (es.map (fun e => if e.typename = "T1" then none else some "m2"))),
         none, false⟩).result
      = .ok (.obj [("a", .obj [("x", .str "m2"), ("@x", .str "1")]),
                   ("b", .obj [("x", .str "1")])])
    ∧ overlapDoc.getPtr ["a", "x"] = some (.str "1")
    ∧ ("m2" : String) ≠ "1" :=
  ⟨rfl, rfl, rfl, by decide⟩
